import Mathlib

/-!
Shallow embedding of the rust_roguelike simulation engine (src/) in Lean 4,
with theorems settling the specification claims.

Modelling conventions:
* Rust `i32` is embedded as `Int` and `u32`/`usize` as `Nat`; no arithmetic in
  the embedded code paths comes near the 32-bit overflow boundary on the
  concrete states considered.
* `f32` Euclidean distances appear only in comparisons between square roots of
  small integers (and the integer constant `max_range + 1`); since `Real.sqrt`
  is strictly monotone and those square roots are exactly representable apart,
  the comparisons are embedded as exact comparisons of squared distances.
* Interactive I/O (tcod key/mouse events, menus, field of view) is embedded as
  explicit parameters: a field-of-view predicate, menu-selection and
  tile/monster-targeting oracles.
* tcod color constants are embedded as an enumeration of the names used.
-/

namespace Roguelike

/-- tcod color constants used by the embedded code, by name. -/
inductive Color where
  | white | red | green | yellow | orange | violet | sky
  | lightGreen | lightYellow | lightViolet | lightBlue | lightCyan | lightRed
  | darkRed | darkerGreen | darkerOrange | desaturatedGreen
  deriving Repr, DecidableEq

/-- `log.rs`: `Messages` is an ordered log of `(text, color)` pairs. -/
def Messages := List (String × Color)

instance : DecidableEq Messages := by unfold Messages; infer_instance

/-- `Messages::add`: append a message to the log. -/
def Messages.add (m : Messages) (text : String) (color : Color) : Messages :=
  (List.concat m (text, color) : List (String × Color))

/-- `map.rs::Tile`. -/
structure Tile where
  blocked : Bool
  block_sight : Bool
  explored : Bool
  deriving Repr, DecidableEq

/-- `Tile::empty()`. -/
def Tile.empty : Tile := { blocked := false, block_sight := false, explored := false }

/-- `Tile::wall()`. -/
def Tile.wall : Tile := { blocked := true, block_sight := true, explored := false }

/-- `map.rs`: `pub type Map = Vec<Vec<Tile>>`, indexed `map[x][y]`. -/
def Map := List (List Tile)

instance : DecidableEq Map := by unfold Map; infer_instance

/-- `DeathCallback`, the closed on-death variant tag (referenced from
`object.rs`; its defining module is a later snapshot not present in `src/`). -/
inductive DeathCallback where
  | player
  | monster
  deriving Repr, DecidableEq

/-- `Fighter` component as used by `object.rs` (base stats, current hp, banked
xp, on-death tag). -/
structure Fighter where
  base_max_hp : Int
  hp : Int
  base_defense : Int
  base_power : Int
  xp : Int
  on_death : DeathCallback
  deriving Repr, DecidableEq

/-- `Ai` component as used by `item.rs::cast_confuse`:
`Basic | Confused { previous_ai: Box<Ai>, num_turns: i32 }`.
The `Box` indirection is embedded as plain recursion. -/
inductive Ai where
  | basic
  | confused (previous_ai : Ai) (num_turns : Int)
  deriving Repr, DecidableEq

/-- Modelled from the spec: the equipment slot enum `{LeftHand, RightHand,
Head, ...}` (its defining module `equipment.rs` is not present in `src/`;
`object.rs` uses `Slot::RightHand` and `Slot::LeftHand`). -/
inductive Slot where
  | leftHand
  | rightHand
  | head
  deriving Repr, DecidableEq

/-- `Slot` display text, used in equip/dequip messages. -/
def Slot.show : Slot → String
  | .leftHand => "left hand"
  | .rightHand => "right hand"
  | .head => "head"

/-- `Equipment` component, fields as constructed in `object.rs::place_objects`:
`{equipped, slot, max_hp_bonus, defense_bonus, power_bonus}` (its defining
module `equipment.rs` is not present in `src/`). -/
structure Equipment where
  equipped : Bool
  slot : Slot
  max_hp_bonus : Int
  defense_bonus : Int
  power_bonus : Int
  deriving Repr, DecidableEq

/-- `item.rs::Item`. -/
inductive Item where
  | heal
  | lightning
  | confuse
  | fireball
  | sword
  | shield
  deriving Repr, DecidableEq

/-- `object.rs::Object`. -/
structure Object where
  x : Int
  y : Int
  char : Char
  color : Color
  name : String
  blocks : Bool
  alive : Bool
  fighter : Option Fighter
  ai : Option Ai
  item : Option Item
  always_visible : Bool
  level : Int
  equipment : Option Equipment
  deriving Repr, DecidableEq

/-- `Object::new`. -/
def Object.new (x y : Int) (char : Char) (name : String) (color : Color)
    (blocks : Bool) : Object :=
  { x, y, char, color, name, blocks
    alive := false
    fighter := none
    ai := none
    item := none
    always_visible := false
    level := 1
    equipment := none }

instance : Inhabited Object := ⟨Object.new 0 0 ' ' "" Color.white false⟩

/-- `game.rs::Game` (the later-stage `Game`, with `dungeon_level`). -/
structure Game where
  map : Map
  messages : Messages
  inventory : List Object
  dungeon_level : Nat

/-- `map.rs`: `pub const PLAYER: usize = 0`. -/
def PLAYER : Nat := 0

/-- `Object::pos`. -/
def Object.pos (self : Object) : Int × Int := (self.x, self.y)

/-- `Object::set_pos`. -/
def Object.set_pos (self : Object) (x y : Int) : Object := { self with x, y }

/-- `Object::distance_to` squared: the source returns
`((dx.pow(2) + dy.pow(2)) as f32).sqrt()`; all uses compare it, and square
roots of distinct naturals in map range are exactly ordered in `f32`, so the
embedding carries the exact squared value instead. -/
def Object.distance_to_sq (self other : Object) : Int :=
  (other.x - self.x) ^ 2 + (other.y - self.y) ^ 2

/-- `Object::distance` (to a point) squared; see `Object.distance_to_sq`. -/
def Object.distance_sq (self : Object) (x y : Int) : Int :=
  (x - self.x) ^ 2 + (y - self.y) ^ 2

/-- `Object::get_all_equipped`: equipped Equipment components from the game
inventory for the player, nothing for anyone else. -/
def Object.get_all_equipped (self : Object) (game : Game) : List Equipment :=
  if self.name = "Player" then
    game.inventory.filterMap fun item =>
      match item.equipment with
      | some e => if e.equipped then some e else none
      | none => none
  else
    []

/-- `Object::power`: base power plus equipped power bonuses. -/
def Object.power (self : Object) (game : Game) : Int :=
  let base_power := (self.fighter.map Fighter.base_power).getD 0
  let bonus := ((self.get_all_equipped game).map Equipment.power_bonus).sum
  base_power + bonus

/-- `Object::defense`: base defense plus equipped defense bonuses. -/
def Object.defense (self : Object) (game : Game) : Int :=
  let base_defense := (self.fighter.map Fighter.base_defense).getD 0
  let bonus := ((self.get_all_equipped game).map Equipment.defense_bonus).sum
  base_defense + bonus

/-- `Object::max_hp`: base max hp plus equipped max-hp bonuses. -/
def Object.max_hp (self : Object) (game : Game) : Int :=
  let base_max_hp := (self.fighter.map Fighter.base_max_hp).getD 0
  let bonus := ((self.get_all_equipped game).map Equipment.max_hp_bonus).sum
  base_max_hp + bonus

/-- `Object::equip`: sets `equipped` when the object is an item carrying an
Equipment component that is not yet equipped. (The Rust error messages format
the whole object with `Debug`; the embedding uses the object's name.) -/
def Object.equip (self : Object) (messages : Messages) : Object × Messages :=
  if self.item.isNone then
    (self, messages.add ("Can't equip " ++ self.name ++ " because it's not an Item.") .red)
  else
    match self.equipment with
    | some equipment =>
        if !equipment.equipped then
          ({ self with equipment := some { equipment with equipped := true } },
           messages.add ("Equipped " ++ self.name ++ " on " ++ equipment.slot.show) .lightGreen)
        else (self, messages)
    | none =>
        (self, messages.add ("Can't equip " ++ self.name ++ " because it's not an Equipment Item.") .red)

/-- `Object::dequip`, exactly as in `object.rs`: the guard is
`if !equipment.equipped`, so the body (which sets `equipped = false` and logs
"Dequipped") runs only when the item is already un-equipped, and an equipped
item is left untouched. -/
def Object.dequip (self : Object) (messages : Messages) : Object × Messages :=
  if self.item.isNone then
    (self, messages.add ("Can't dequip " ++ self.name ++ " because it's not an Item.") .red)
  else
    match self.equipment with
    | some equipment =>
        if !equipment.equipped then
          ({ self with equipment := some { equipment with equipped := false } },
           messages.add ("Dequipped " ++ self.name ++ " on " ++ equipment.slot.show) .lightYellow)
        else (self, messages)
    | none =>
        (self, messages.add ("Can't dequip " ++ self.name ++ " because it's not an Equipment Item.") .red)

/-- `Object::heal`: raise hp by `amount`, clamped to effective max hp. -/
def Object.heal (self : Object) (amount : Int) (game : Game) : Object :=
  let max_hp := self.max_hp game
  match self.fighter with
  | some fighter =>
      let hp := fighter.hp + amount
      let hp := if hp > max_hp then max_hp else hp
      { self with fighter := some { fighter with hp } }
  | none => self

/-- `map[x as usize][y as usize]` (unchecked in Rust; out-of-bounds reads,
which never occur on the states considered, default to a wall tile). -/
def Map.tileAt (map : Map) (x y : Int) : Tile :=
  ((map.getD x.toNat []).getD y.toNat Tile.wall)

/-- `object.rs::is_blocked`. -/
def is_blocked (x y : Int) (map : Map) (objects : List Object) : Bool :=
  if (map.tileAt x y).blocked then
    true
  else
    objects.any fun object => object.blocks && object.pos = (x, y)

/-- `Object::move_by`: move the object at `id` unless the destination is
blocked. -/
def Object.move_by (id : Nat) (dx dy : Int) (map : Map) (objects : List Object) :
    List Object :=
  let (x, y) := (objects.getD id default).pos
  if !is_blocked (x + dx) (y + dy) map objects then
    objects.set id ((objects.getD id default).set_pos (x + dx) (y + dy))
  else
    objects

/-- Modelled from the spec: `DeathCallback::callback` dispatch (its defining
module is a later snapshot not present in `src/`). Per §4.4, the `Player`
variant emits a game-over message and freezes further player turns (the
caller has already cleared `alive`); the `Monster` variant renames the object
to "remains of X", clears the blocking flag and clears the AI so it never
acts again. -/
def DeathCallback.callback : DeathCallback → Object → Game → Object × Game
  | .player, obj, game =>
      (obj, { game with messages := game.messages.add "You died!" .red })
  | .monster, obj, game =>
      ({ obj with name := "remains of " ++ obj.name, blocks := false, ai := none }, game)

/-- `Object::take_damage`: apply positive damage floored at hp 0; when the
(post-damage) fighter's hp is 0, clear `alive`, set `always_visible`, run the
death callback and return the banked xp. -/
def Object.take_damage (self : Object) (damage : Int) (game : Game) :
    Object × Game × Option Int :=
  -- if let Some(fighter) = self.fighter.as_mut() { ... }
  let self :=
    match self.fighter with
    | some fighter =>
        if damage > 0 then
          { self with
            fighter := some { fighter with
              hp := if fighter.hp - damage < 0 then 0 else fighter.hp - damage } }
        else self
    | none => self
  -- if let Some(fighter) = self.fighter { if fighter.hp == 0 { ... } }
  match self.fighter with
  | some fighter =>
      if fighter.hp = 0 then
        let self := { self with alive := false, always_visible := true }
        let (self, game) := fighter.on_death.callback self game
        (self, game, some fighter.xp)
      else (self, game, none)
  | none => (self, game, none)

/-- `Object::attack`: damage is effective power minus effective defense;
positive damage is passed to `take_damage` and a kill's xp is banked on the
attacker (the source unwraps the attacker's fighter; an attacker without one
never reaches that line). -/
def Object.attack (self : Object) (target : Object) (game : Game) :
    Object × Object × Game :=
  let damage := self.power game - target.defense game
  if damage > 0 then
    let game := { game with
      messages := game.messages.add
        (self.name ++ " attacks " ++ target.name ++ " for " ++ toString damage ++ " hp")
        .white }
    let (target, game, xpOpt) := target.take_damage damage game
    match xpOpt with
    | some xp =>
        ({ self with fighter := self.fighter.map fun f => { f with xp := f.xp + xp } },
         target, game)
    | none => (self, target, game)
  else
    (self, target,
     { game with
       messages := game.messages.add
         (self.name ++ " attacks " ++ target.name ++ " but it has no effect!")
         .white })

/-- Modelled from the spec: `equipment.rs::get_equipped_in_slot` (not present
in `src/`): the inventory index of "whatever else currently occupies the same
slot" (§4.6), i.e. the first inventory item whose Equipment component is
equipped in the given slot. -/
def get_equipped_in_slot (slot : Slot) (inventory : List Object) : Option Nat :=
  inventory.findIdx? fun item =>
    match item.equipment with
    | some e => e.equipped && e.slot = slot
    | none => false

/-! Constants from `item.rs` and `object.rs`. -/

def HEAL_AMOUNT : Int := 40
def LIGHTNING_DAMAGE : Int := 40
def LIGHTNING_RANGE : Int := 5
def CONFUSE_RANGE : Int := 8
def CONFUSE_NUM_TURNS : Int := 10
def FIREBALL_RADIUS : Int := 3
def FIREBALL_DAMAGE : Int := 25
def LEVEL_UP_BASE : Int := 200
def LEVEL_UP_FACTOR : Int := 150

/-- `item.rs::Transition { level: u32, value: u32 }`. -/
structure Transition where
  level : Nat
  value : Nat
  deriving Repr, DecidableEq

/-- `item.rs::from_dungeon_level`: scan the table back-to-front for the first
entry with `level >= transition.level`, defaulting to 0. -/
def from_dungeon_level (table : List Transition) (level : Nat) : Nat :=
  ((table.reverse.find? fun transition => level ≥ transition.level).map
    Transition.value).getD 0

/-! Dungeon tunnels (`map.rs` / `game.rs::make_map`). -/

/-- `map.rs::TunnelDirection`. -/
inductive TunnelDirection where
  | horizontal
  | vertical
  deriving Repr, DecidableEq

/-- Write one tile of a tunnel: `map[a][b] = Tile::empty()` for horizontal,
`map[b][a] = Tile::empty()` for vertical. -/
def Map.setTile (map : Map) (x y : Nat) (t : Tile) : Map :=
  (map : List (List Tile)).set x ((map.getD x []).set y t)

/-- `map.rs::create_tunnel`: carve `Tile::empty` along `min(a1,a2) ..= max(a1,a2)`
at fixed coordinate `b`, in the axis given by `dir`. -/
def create_tunnel (a1 a2 : Int) (b : Nat) (dir : TunnelDirection) (map : Map) : Map :=
  let low := min a1 a2
  let high := max a1 a2 + 1
  (List.range (high - low).toNat).foldl
    (fun map i =>
      let a := low + (i : Int)
      match dir with
      | .horizontal => map.setTile a.toNat b Tile.empty
      | .vertical => map.setTile b a.toNat Tile.empty)
    map

/-- `map.rs::create_horiz_tunnel`. -/
def create_horiz_tunnel (x1 x2 y : Int) (map : Map) : Map :=
  create_tunnel x1 x2 y.toNat .horizontal map

/-- `map.rs::create_vert_tunnel`. -/
def create_vert_tunnel (y1 y2 x : Int) (map : Map) : Map :=
  create_tunnel y1 y2 x.toNat .vertical map

/-- The room-connection step of `game.rs::make_map`, verbatim for a given coin
flip: `true` is the "Move horiz then vert" branch
(`create_horiz_tunnel(prev_x, new_x, prev_y); create_vert_tunnel(prev_y, new_y, prev_x)`),
`false` the "Move vert then horiz" branch
(`create_vert_tunnel(prev_y, new_y, prev_x); create_horiz_tunnel(prev_x, new_x, prev_y)`). -/
def make_map_connect (coin : Bool) (prev_x prev_y new_x new_y : Int) (map : Map) : Map :=
  if coin then
    create_vert_tunnel prev_y new_y prev_x (create_horiz_tunnel prev_x new_x prev_y map)
  else
    create_horiz_tunnel prev_x new_x prev_y (create_vert_tunnel prev_y new_y prev_x map)

/-- `map.rs::MAP_WIDTH`. -/
def MAP_WIDTH : Int := 80
/-- `map.rs::MAP_HEIGHT`. -/
def MAP_HEIGHT : Int := 43

/-- The all-walls initial map of `make_map`:
`vec![vec![Tile::wall(); MAP_HEIGHT]; MAP_WIDTH]`. -/
def initialMap : Map :=
  List.replicate MAP_WIDTH.toNat (List.replicate MAP_HEIGHT.toNat Tile.wall)

/-! `object.rs::closest_monster` and the lightning scroll. -/

/-- The conjunction of checks selecting lightning targets in
`closest_monster`'s loop, minus the positional `id != PLAYER` check. -/
def lightning_candidate (fov : Int → Int → Bool) (obj : Object) : Prop :=
  obj.fighter.isSome = true ∧ obj.ai.isSome = true ∧ fov obj.x obj.y = true

instance (fov : Int → Int → Bool) (obj : Object) :
    Decidable (lightning_candidate fov obj) := by
  unfold lightning_candidate; infer_instance

/-- The `closest_dist` comparison bound carried by `closest_monster`'s loop,
squared: `(max_range + 1)²` until a candidate is found, then the best
candidate's squared distance. -/
def cm_bound (max_range : Int) : Option (Nat × Int) → Int
  | none => (max_range + 1) ^ 2
  | some (_, d) => d

/-- The loop body of `closest_monster`: the state is the current best
`(id, dist²)`, `none` while `closest_dist` still holds its initial value
`(max_range + 1)`. Comparisons of the `f32` distances are embedded as exact
comparisons of squared distances (see `Object.distance_to_sq`). -/
def closest_monster_loop (player : Object) (fov : Int → Int → Bool)
    (max_range : Int) : List Object → Nat → Option (Nat × Int) → Option (Nat × Int)
  | [], _, best => best
  | object :: rest, id, best =>
      let best :=
        if id ≠ PLAYER ∧ lightning_candidate fov object then
          let dist_sq := player.distance_to_sq object
          if dist_sq < cm_bound max_range best then some (id, dist_sq) else best
        else best
      closest_monster_loop player fov max_range rest (id + 1) best

/-- `object.rs::closest_monster`: nearest FOV-visible fighter-and-AI-bearing
non-player object whose distance is strictly below `max_range + 1`; ties keep
the earliest index (the comparison is strict). -/
def closest_monster (fov : Int → Int → Bool) (objects : List Object)
    (max_range : Int) : Option Nat :=
  (closest_monster_loop (objects.getD PLAYER default) fov max_range objects 0 none).map
    Prod.fst

/-! The item/effect system (`item.rs`). Interactive inputs (field of view,
`target_monster`, `target_tile`, menu keypresses) are passed in explicitly. -/

/-- `item.rs::UseResult`. -/
inductive UseResult where
  | usedUp
  | usedAndKept
  | cancelled
  deriving Repr, DecidableEq

/-- `item.rs::cast_heal`. -/
def cast_heal (_inventory_id : Nat) (game : Game) (objects : List Object) :
    Game × List Object × UseResult :=
  let player := objects.getD PLAYER default
  match player.fighter with
  | some fighter =>
      if fighter.hp = player.max_hp game then
        ({ game with messages := game.messages.add "You are already at full health." .red },
         objects, .cancelled)
      else
        let game := { game with
          messages := game.messages.add "Your wounds start to feel better!" .lightViolet }
        (game, objects.set PLAYER (player.heal HEAL_AMOUNT game), .usedUp)
  | none => (game, objects, .cancelled)

/-- `item.rs::cast_lightning`, over an explicit field-of-view predicate. -/
def cast_lightning (_inventory_id : Nat) (fov : Int → Int → Bool) (game : Game)
    (objects : List Object) : Game × List Object × UseResult :=
  match closest_monster fov objects LIGHTNING_RANGE with
  | some monster_id =>
      let game := { game with
        messages := game.messages.add
          ("A lightning bolt strikes the " ++ (objects.getD monster_id default).name
            ++ " with a loud thunder! The damage is " ++ toString LIGHTNING_DAMAGE
            ++ " hit poiints.")
          .lightBlue }
      let (monster, game, xpOpt) :=
        (objects.getD monster_id default).take_damage LIGHTNING_DAMAGE game
      let objects := objects.set monster_id monster
      let objects :=
        match xpOpt with
        | some xp =>
            let player := objects.getD PLAYER default
            objects.set PLAYER
              { player with fighter := player.fighter.map fun f => { f with xp := f.xp + xp } }
        | none => objects
      (game, objects, .usedUp)
  | none =>
      ({ game with messages := game.messages.add "No enemy is close enough to strike." .red },
       objects, .cancelled)

/-- `item.rs::cast_confuse`, over the result of the interactive
`target_monster` call (a clicked monster index, or `None` on abort). -/
def cast_confuse (_inventory_id : Nat) (target : Option Nat) (game : Game)
    (objects : List Object) : Game × List Object × UseResult :=
  match target with
  | some monster_id =>
      let monster := objects.getD monster_id default
      -- let old_ai = objects[monster_id].ai.take().unwrap_or(Ai::Basic)
      let old_ai := monster.ai.getD Ai.basic
      let objects := objects.set monster_id
        { monster with ai := some (Ai.confused old_ai CONFUSE_NUM_TURNS) }
      let game := { game with
        messages := game.messages.add
          ("The eyes of " ++ monster.name ++ " look vacant, as he starts to stumble around!")
          .lightGreen }
      (game, objects, .usedUp)
  | none =>
      ({ game with messages := game.messages.add "No enemy is close enough to strike." .red },
       objects, .cancelled)

/-- `item.rs::cast_fireball`, over the result of the interactive `target_tile`
call. -/
def cast_fireball (_inventory_id : Nat) (tile : Option (Int × Int)) (game : Game)
    (objects : List Object) : Game × List Object × UseResult :=
  let game := { game with
    messages := game.messages.add
      "Left-click a target tile for the fireball, or right-click to cancel" .lightCyan }
  match tile with
  | none => (game, objects, .cancelled)
  | some (x, y) =>
      let game := { game with
        messages := game.messages.add
          ("The fireball explodes, burning everything within "
            ++ toString FIREBALL_RADIUS ++ " tiles!")
          .orange }
      -- for (id, obj) in objects.iter_mut().enumerate() { ... }
      let (objects, game, xp_to_gain) :=
        (objects.enum.foldl
          (fun (acc : List Object × Game × Int) (p : Nat × Object) =>
            let (done, game, xp_to_gain) := acc
            let (id, obj) := p
            -- The f32 comparison `obj.distance(x, y) <= FIREBALL_RADIUS as f32`
            -- is exact on squared integers.
            if obj.distance_sq x y ≤ FIREBALL_RADIUS ^ 2 && obj.fighter.isSome then
              let game := { game with
                messages := game.messages.add
                  ("The " ++ obj.name ++ " gets burned for "
                    ++ toString FIREBALL_DAMAGE ++ " hit points.")
                  .orange }
              let (obj, game, xpOpt) := obj.take_damage FIREBALL_DAMAGE game
              let xp_to_gain :=
                match xpOpt with
                | some xp => if id ≠ PLAYER then xp_to_gain + xp else xp_to_gain
                | none => xp_to_gain
              (done.concat obj, game, xp_to_gain)
            else
              (done.concat obj, game, xp_to_gain))
          ([], game, 0))
      let player := objects.getD PLAYER default
      let objects := objects.set PLAYER
        { player with fighter := player.fighter.map fun f => { f with xp := f.xp + xp_to_gain } }
      (game, objects, .usedUp)

/-- `item.rs::toggle_equipment`. -/
def toggle_equipment (inventory_id : Nat) (game : Game) (objects : List Object) :
    Game × List Object × UseResult :=
  match (game.inventory.getD inventory_id default).equipment with
  | none => (game, objects, .cancelled)
  | some equipment =>
      if equipment.equipped then
        let (item, messages) :=
          (game.inventory.getD inventory_id default).dequip game.messages
        ({ game with inventory := game.inventory.set inventory_id item, messages },
         objects, .usedAndKept)
      else
        -- If the slot is already being used, dequip whatever is there first
        let (inventory, messages) :=
          match get_equipped_in_slot equipment.slot game.inventory with
          | some current =>
              let (item, messages) :=
                (game.inventory.getD current default).dequip game.messages
              (game.inventory.set current item, messages)
          | none => (game.inventory, game.messages)
        let (item, messages) := (inventory.getD inventory_id default).equip messages
        ({ game with inventory := inventory.set inventory_id item, messages },
         objects, .usedAndKept)

/-- The interactive inputs a single `use_item` call can consume. -/
structure IoOracle where
  fov : Int → Int → Bool
  monster_target : Option Nat
  tile_target : Option (Int × Int)
  menu_choice : Option Nat

/-- `item.rs::use_item`: dispatch on the item tag, then destroy the item on
`UsedUp`, keep it on `UsedAndKept`, and log "Cancelled" on `Cancelled`. -/
def use_item (oracle : IoOracle) (inventory_id : Nat) (game : Game)
    (objects : List Object) : Game × List Object :=
  match (game.inventory.getD inventory_id default).item with
  | some item =>
      let (game, objects, result) :=
        match item with
        | .heal => cast_heal inventory_id game objects
        | .lightning => cast_lightning inventory_id oracle.fov game objects
        | .confuse => cast_confuse inventory_id oracle.monster_target game objects
        | .fireball => cast_fireball inventory_id oracle.tile_target game objects
        | .sword => toggle_equipment inventory_id game objects
        | .shield => toggle_equipment inventory_id game objects
      match result with
      | .usedUp => ({ game with inventory := game.inventory.eraseIdx inventory_id }, objects)
      | .usedAndKept => (game, objects)
      | .cancelled => ({ game with messages := game.messages.add "Cancelled" .white }, objects)
  | none =>
      ({ game with
         messages := game.messages.add
           ("The " ++ (game.inventory.getD inventory_id default).name ++ " cannot be used.")
           .white },
       objects)

/-- `Vec::swap_remove(i)`: move the last element into index `i` and pop the
last slot (on an empty vector Rust panics; the embedding returns `[]`). -/
def swap_remove (l : List Object) (i : Nat) : List Object :=
  match l.getLast? with
  | some last => (l.set i last).dropLast
  | none => []

/-- `item.rs::pick_item_up`: refuse when the inventory holds 26 items, else
`swap_remove` the ground object into the inventory and auto-equip it when its
slot is free. -/
def pick_item_up (object_id : Nat) (game : Game) (objects : List Object) :
    Game × List Object :=
  if game.inventory.length ≥ 26 then
    ({ game with
       messages := game.messages.add
         ("Your inventory is full, cannot pick up " ++ (objects.getD object_id default).name)
         .red },
     objects)
  else
    let item := objects.getD object_id default
    let objects := swap_remove objects object_id
    let messages := game.messages.add ("You picked up a " ++ item.name ++ "!") .green
    let index := game.inventory.length
    let slot := item.equipment.map Equipment.slot
    let inventory := game.inventory.concat item
    let (inventory, messages) :=
      match slot with
      | some slot =>
          if (get_equipped_in_slot slot inventory).isNone then
            let (item, messages) := (inventory.getD index default).equip messages
            (inventory.set index item, messages)
          else (inventory, messages)
      | none => (inventory, messages)
    ({ game with inventory, messages }, objects)

/-- `item.rs::Potion::new`. -/
def Potion.new (x y : Int) (name : String) (item : Item) : Object :=
  let object := Object.new x y '!' (name ++ " Potion") .violet false
  { object with item := some item, always_visible := true }

/-- `item.rs::Scroll::new`. -/
def Scroll.new (x y : Int) (name : String) (item : Item) : Object :=
  let object := Object.new x y '#' ("Scroll of " ++ name) .lightYellow false
  { object with item := some item, always_visible := true }

/-- `main.rs::drop_item`. -/
def drop_item (inventory_id : Nat) (game : Game) (objects : List Object) :
    Game × List Object :=
  let item := game.inventory.getD inventory_id default
  let inventory := game.inventory.eraseIdx inventory_id
  let player := objects.getD PLAYER default
  let item := item.set_pos player.x player.y
  let messages := game.messages.add ("You dropped a " ++ item.name ++ ".") .yellow
  ({ game with inventory, messages }, objects.concat item)

/-- `object.rs::level_up`, over the eventual menu selection: the source loops
`while choice.is_none()` until the menu yields a valid index, so the retried
interaction is embedded as a `Fin 3` parameter. -/
def level_up (choice : Fin 3) (game : Game) (objects : List Object) :
    Game × List Object :=
  let player := objects.getD PLAYER default
  let level_up_xp := LEVEL_UP_BASE + player.level * LEVEL_UP_FACTOR
  if ((player.fighter.map Fighter.xp).getD 0) ≥ level_up_xp then
    let player := { player with level := player.level + 1 }
    let game := { game with
      messages := game.messages.add
        ("Your battle skills grow stronger! You reached level " ++ toString player.level)
        .yellow }
    match player.fighter with
    | some fighter =>
        let fighter := { fighter with xp := fighter.xp - level_up_xp }
        let fighter :=
          match (choice : Fin 3) with
          | 0 => { fighter with base_max_hp := fighter.base_max_hp + 20, hp := fighter.hp + 20 }
          | 1 => { fighter with base_power := fighter.base_power + 1 }
          | 2 => { fighter with base_defense := fighter.base_defense + 1 }
        (game, objects.set PLAYER { player with fighter := some fighter })
    | none => (game, objects.set PLAYER player)
  else
    (game, objects)

/-! The turn engine (`main.rs`). -/

/-- `object.rs::PlayerAction`. -/
inductive PlayerAction where
  | tookTurn
  | didntTakeTurn
  | exit
  deriving Repr, DecidableEq

/-- `main.rs::player_move_or_attack`: attack the fighter at the destination if
there is one (via the `mut_two` split borrow), otherwise try to move; both
paths return `TookTurn`. -/
def player_move_or_attack (dx dy : Int) (game : Game) (objects : List Object) :
    Game × List Object × PlayerAction :=
  let x := (objects.getD PLAYER default).x + dx
  let y := (objects.getD PLAYER default).y + dy
  let target_id := objects.findIdx? fun object =>
    object.fighter.isSome && object.pos = (x, y)
  match target_id with
  | some target_id =>
      -- let (player, target) = mut_two(PLAYER, target_id, objects)
      let player := objects.getD PLAYER default
      let target := objects.getD target_id default
      let (player, target, game) := player.attack target game
      (game, (objects.set PLAYER player).set target_id target, .tookTurn)
  | none =>
      (game, Object.move_by PLAYER dx dy game.map objects, .tookTurn)

/-- The key events `main.rs::handle_keys` distinguishes. -/
inductive KeyEvent where
  | up | down | left | right
  | textD | textG | textI
  | altEnter | escape | other
  deriving Repr, DecidableEq

/-- `map.rs::menu` outcome for a given keypress: a letter index below the
option count, `None` otherwise. The keypress is embedded as the letter index
the player hit (or `none` for a non-alphabetic key). -/
def menu_select (options_len : Nat) (keypress : Option Nat) : Option Nat :=
  match keypress with
  | some index => if index < options_len then some index else none
  | none => none

/-- `map.rs::inventory_menu`: one "Inventory is empty." line when empty, else
one option per item; a selection counts only when the inventory is nonempty. -/
def inventory_menu (inventory : List Object) (keypress : Option Nat) : Option Nat :=
  let options_len := if inventory.length = 0 then 1 else inventory.length
  let inventory_index := menu_select options_len keypress
  if inventory.length > 0 then inventory_index else none

/-- `main.rs::handle_keys` (the fullscreen toggle touches only the tcod root
console, so it is state-free here). -/
def handle_keys (oracle : IoOracle) (key : KeyEvent) (game : Game)
    (objects : List Object) : Game × List Object × PlayerAction :=
  let player_alive := (objects.getD PLAYER default).alive
  match key, player_alive with
  | .up, true => player_move_or_attack 0 (-1) game objects
  | .down, true => player_move_or_attack 0 1 game objects
  | .left, true => player_move_or_attack (-1) 0 game objects
  | .right, true => player_move_or_attack 1 0 game objects
  | .textD, true =>
      let (game, objects) :=
        match inventory_menu game.inventory oracle.menu_choice with
        | some inventory_index => drop_item inventory_index game objects
        | none => (game, objects)
      (game, objects, .didntTakeTurn)
  | .textG, true =>
      let item_id := objects.findIdx? fun object =>
        object.pos = (objects.getD PLAYER default).pos && object.item.isSome
      let (game, objects) :=
        match item_id with
        | some item_id => pick_item_up item_id game objects
        | none => (game, objects)
      (game, objects, .didntTakeTurn)
  | .textI, true =>
      let (game, objects) :=
        match inventory_menu game.inventory oracle.menu_choice with
        | some inventory_index => use_item oracle inventory_index game objects
        | none => (game, objects)
      (game, objects, .didntTakeTurn)
  | .altEnter, _ => (game, objects, .didntTakeTurn)
  | .escape, _ => (game, objects, .exit)
  | _, _ => (game, objects, .didntTakeTurn)

/-- The monster-phase guard of `main.rs::play_game`:
`if objects[PLAYER].alive && player_action != DidntTakeTurn { ... }`
(reached only after the `Exit` branch has already broken out of the loop). -/
def monster_phase_runs (objects : List Object) (player_action : PlayerAction) : Bool :=
  (objects.getD PLAYER default).alive && player_action ≠ .didntTakeTurn

/-! The AI controller (`ai.rs`). The `src/` snapshot of `ai.rs` predates the
`Confused` variant (its `Ai` has only `Basic` and its `ai_take_turn` never
updates AI state), while `item.rs::cast_confuse` in `src/` already installs
`Ai::Confused`; the final-stage controller is not under `src/`, so its
per-invocation behavior is modelled from the spec. -/

/-- What an AI-controller invocation does to the world, abstracted. -/
inductive AiAction where
  | approachPlayer
  | attackPlayer
  | moveRandom (dx dy : Int)
  | doNothing
  deriving Repr, DecidableEq

/-- The per-invocation inputs of the AI controller. -/
structure AiEnv where
  in_fov : Bool
  dist_ge_2 : Bool
  player_alive : Bool
  rng_move : Int × Int

/-- Modelled from the spec: one AI-controller invocation on a monster (§4.5;
the final-stage `ai_take_turn` is not under `src/`). `Basic` with the target
in field of view approaches at distance ≥ 2 and otherwise attacks a living
player; out of view it does nothing. `Confused` moves to a random adjacent
tile (never attacking) and decrements `remaining_turns`; on reaching 0 it is
replaced by the stored previous AI. -/
def ai_controller_step (env : AiEnv) : Ai → Ai × AiAction
  | .basic =>
      if env.in_fov then
        if env.dist_ge_2 then (.basic, .approachPlayer)
        else if env.player_alive then (.basic, .attackPlayer)
        else (.basic, .doNothing)
      else (.basic, .doNothing)
  | .confused previous_ai num_turns =>
      let ai :=
        if num_turns - 1 = 0 then previous_ai
        else Ai.confused previous_ai (num_turns - 1)
      (ai, .moveRandom env.rng_move.1 env.rng_move.2)

/-- Iterated AI-controller invocations under an environment stream. -/
def ai_controller_iter (envs : Nat → AiEnv) : Nat → Ai → Ai
  | 0, ai => ai
  | n + 1, ai => ai_controller_iter (fun k => envs (k + 1)) n (ai_controller_step (envs 0) ai).1

/-! Concrete fixtures used by the claim theorems. -/

/-- `log.rs::Messages::new`: the empty log. -/
def Messages.new : Messages := ([] : List (String × Color))

/-- The empty map (only concrete claims that never touch the map use it). -/
def Map.empty : Map := ([] : List (List Tile))

/-- A game state with a given inventory, fresh log, empty map, depth 1. -/
def mkGame (inventory : List Object) : Game :=
  { map := Map.empty, messages := Messages.new, inventory, dungeon_level := 1 }

/-- A game state with a given map and no inventory. -/
def mkGameMap (map : Map) : Game :=
  { map, messages := Messages.new, inventory := [], dungeon_level := 1 }

/-- The sword built in `object.rs::place_objects`, at a chosen equip state. -/
def swordObject (equipped : Bool) : Object :=
  let object := Object.new 0 0 '/' "Sword" .sky false
  { object with
    item := some Item.sword
    equipment := some
      { equipped, slot := .rightHand, max_hp_bonus := 0, defense_bonus := 0, power_bonus := 3 } }

/-- The orc Fighter of `object.rs::place_objects`. -/
def orcFighter : Fighter :=
  { base_max_hp := 20, hp := 20, base_defense := 0, base_power := 4, xp := 35
    on_death := .monster }

/-- The orc built in `object.rs::place_objects`. -/
def orcObject (x y : Int) : Object :=
  let orc := Object.new x y 'o' "Orc" .desaturatedGreen true
  { orc with
    fighter := some orcFighter
    ai := some Ai.basic
    alive := true }

/-- The player Fighter of `main.rs::new_game`, with the final-stage fields
(`base_*`, xp 0). -/
def playerFighter : Fighter :=
  { base_max_hp := 30, hp := 30, base_defense := 2, base_power := 5, xp := 0
    on_death := .player }

/-- The player built in `main.rs::new_game`. -/
def playerObject (x y : Int) : Object :=
  let player := Object.new x y '@' "Player" .white true
  { player with
    alive := true
    fighter := some playerFighter }

/-- Number of inventory items equipped in a slot (the §3 slot-exclusivity
invariant counts these). -/
def equippedCountInSlot (slot : Slot) (inventory : List Object) : Nat :=
  inventory.countP fun o =>
    match o.equipment with
    | some e => e.equipped && e.slot = slot
    | none => false

/-! Claim theorems. -/

/-- Claim C1 (code bug): using the unequipped second sword while the first
sword is equipped in the same (right-hand) slot leaves **two** equipped items
in that slot, because `Object::dequip` guards its body with
`if !equipment.equipped` and therefore never clears an equipped item. The
claim (and the code's own comment "dequip whatever is there first") expects
exactly one. -/
theorem C1_toggle_equipment_leaves_two_equipped :
    equippedCountInSlot .rightHand
        ((toggle_equipment 1 (mkGame [swordObject true, swordObject false]) []).1.inventory) = 2
      ∧ (swordObject true).equipment = some
          { equipped := true, slot := .rightHand
            max_hp_bonus := 0, defense_bonus := 0, power_bonus := 3 }
      ∧ ((swordObject true).dequip Messages.new).1.equipment = (swordObject true).equipment := by
  refine ⟨by decide, rfl, rfl⟩

/-- Claim C5 (code bug): for previous room center `(10, 10)` and new room
center `(20, 20)`, the two coin-flip branches of `make_map`'s room-connection
step carve **identical** tile sets (the code passes `prev_x`/`prev_y` to the
second leg in both branches), so the random axis order never affects the
carved tiles; moreover the carved corridor never reaches the new center's
column below the previous center's row (tile `(20, 15)` stays a wall), so no
L-shaped corridor between the two centers is carved. -/
theorem C5_tunnel_branches_carve_identical_tiles :
    make_map_connect true 10 10 20 20 initialMap
        = make_map_connect false 10 10 20 20 initialMap
      ∧ ((make_map_connect true 10 10 20 20 initialMap).tileAt 20 15).blocked = true
      ∧ ((make_map_connect true 10 10 20 20 initialMap).tileAt 20 20).blocked = true
      ∧ ((make_map_connect true 10 10 20 20 initialMap).tileAt 10 15).blocked = false := by
  refine ⟨by decide, by decide, by decide, by decide⟩

/-- Scanning a reversed list for the first match finds the last matching
element of the list. -/
theorem find?_reverse_eq_getLast?_filter {α : Type} (p : α → Bool) (l : List α) :
    l.reverse.find? p = (l.filter p).getLast? := by
  induction l using List.reverseRecOn with
  | nil => rfl
  | append_singleton l a ih =>
    simp only [List.reverse_append, List.reverse_singleton, List.singleton_append,
      List.find?_cons, List.filter_append, List.filter_cons]
    cases h : p a with
    | true =>
      show some a = (l.filter p ++ [a]).getLast?
      rw [List.getLast?_concat]
    | false =>
      show l.reverse.find? p = (l.filter p ++ []).getLast?
      rw [List.append_nil]
      exact ih

/-- Claim C8: `from_dungeon_level` returns the value of the last table entry
whose level is ≤ the depth (0 when none qualifies); in particular, on a table
with strictly ascending levels, a depth exactly equal to an entry's level
returns that entry's value (step semantics). -/
theorem C8_from_dungeon_level_step_semantics :
    (∀ (table : List Transition) (d : Nat),
        from_dungeon_level table d =
          (((table.filter fun t => t.level ≤ d).getLast?).map Transition.value).getD 0)
      ∧ ∀ (table : List Transition) (d : Nat) (t : Transition),
          table.Pairwise (fun a b => a.level < b.level) → t ∈ table → t.level = d →
            from_dungeon_level table d = t.value := by
  have key : ∀ (table : List Transition) (d : Nat),
      from_dungeon_level table d =
        (((table.filter fun t => t.level ≤ d).getLast?).map Transition.value).getD 0 := by
    intro table d
    unfold from_dungeon_level
    rw [find?_reverse_eq_getLast?_filter]
  refine ⟨key, ?_⟩
  intro table d t hsorted hmem hlevel
  induction table with
  | nil => cases hmem
  | cons a rest ih =>
    rcases List.pairwise_cons.mp hsorted with ⟨ha, hrest⟩
    rcases List.mem_cons.mp hmem with rfl | hmemrest
    · -- `t` is the head: everything behind it has level > d, so the reverse
      -- scan falls through to the head.
      have hnone : rest.reverse.find? (fun tr => decide (d ≥ tr.level)) = none := by
        rw [List.find?_eq_none]
        intro s hs
        have := ha s (List.mem_reverse.mp hs)
        simp only [decide_eq_true_eq]
        omega
      unfold from_dungeon_level
      rw [List.reverse_cons, List.find?_append, hnone, Option.none_or]
      simp [List.find?_cons, hlevel]
    · -- `t` is behind the head: the reverse scan finds a match before ever
      -- reaching the head.
      have hsome : (rest.reverse.find? (fun tr => decide (d ≥ tr.level))).isSome := by
        rw [List.find?_isSome]
        exact ⟨t, List.mem_reverse.mpr hmemrest, by simp [hlevel]⟩
      have htail := ih hrest hmemrest
      unfold from_dungeon_level at htail ⊢
      rw [List.reverse_cons, List.find?_append]
      rcases Option.isSome_iff_exists.mp hsome with ⟨v, hv⟩
      rw [hv] at htail ⊢
      simpa using htail

/-- Claim C9: the level-up threshold for player level `L` is
`LEVEL_UP_BASE + L * LEVEL_UP_FACTOR = 200 + L*150`; accumulated xp ≥ the
threshold increments the level by one and subtracts exactly one threshold
from xp (xp equal to the threshold levels up and leaves 0; xp below the
threshold changes nothing; overflow carries forward). -/
theorem C9_level_up_threshold_arithmetic (player : Object) (f : Fighter)
    (rest : List Object) (game : Game) (choice : Fin 3)
    (hf : player.fighter = some f) :
    (LEVEL_UP_BASE + player.level * LEVEL_UP_FACTOR = 200 + player.level * 150)
      ∧ (f.xp ≥ 200 + player.level * 150 →
          ∃ f', (((level_up choice game (player :: rest)).2.getD PLAYER default).fighter
              = some f')
            ∧ ((level_up choice game (player :: rest)).2.getD PLAYER default).level
              = player.level + 1
            ∧ f'.xp = f.xp - (200 + player.level * 150))
      ∧ (f.xp < 200 + player.level * 150 →
          (level_up choice game (player :: rest)).2 = player :: rest)
      ∧ (f.xp = 200 + player.level * 150 →
          ∃ f', (((level_up choice game (player :: rest)).2.getD PLAYER default).fighter
              = some f')
            ∧ f'.xp = 0) := by
  have hthr : LEVEL_UP_BASE + player.level * LEVEL_UP_FACTOR
      = 200 + player.level * 150 := by
    simp [LEVEL_UP_BASE, LEVEL_UP_FACTOR]
  have main : f.xp ≥ 200 + player.level * 150 →
      ∃ f', (((level_up choice game (player :: rest)).2.getD PLAYER default).fighter
          = some f')
        ∧ ((level_up choice game (player :: rest)).2.getD PLAYER default).level
          = player.level + 1
        ∧ f'.xp = f.xp - (200 + player.level * 150) := by
    intro hxp
    have hxp' : f.xp ≥ LEVEL_UP_BASE + player.level * LEVEL_UP_FACTOR := by
      rw [hthr]; exact hxp
    have hsub : f.xp - (LEVEL_UP_BASE + player.level * LEVEL_UP_FACTOR)
        = f.xp - (200 + player.level * 150) := by rw [hthr]
    fin_cases choice
    · refine ⟨{ f with base_max_hp := f.base_max_hp + 20, hp := f.hp + 20, xp := f.xp - (LEVEL_UP_BASE + player.level * LEVEL_UP_FACTOR) }, ?_, ?_, hsub⟩
      · simp [level_up, PLAYER, hf, hxp']
      · simp [level_up, PLAYER, hf, hxp']
    · refine ⟨{ f with base_power := f.base_power + 1, xp := f.xp - (LEVEL_UP_BASE + player.level * LEVEL_UP_FACTOR) }, ?_, ?_, hsub⟩
      · simp [level_up, PLAYER, hf, hxp']
      · simp [level_up, PLAYER, hf, hxp']
    · refine ⟨{ f with base_defense := f.base_defense + 1, xp := f.xp - (LEVEL_UP_BASE + player.level * LEVEL_UP_FACTOR) }, ?_, ?_, hsub⟩
      · simp [level_up, PLAYER, hf, hxp']
      · simp [level_up, PLAYER, hf, hxp']
  refine ⟨hthr, main, ?_, ?_⟩
  · intro hxp
    have : ¬ (f.xp ≥ LEVEL_UP_BASE + player.level * LEVEL_UP_FACTOR) := by omega
    simp [level_up, PLAYER, hf, this]
  · intro hxp
    obtain ⟨f', h1, _, h3⟩ := main (le_of_eq hxp.symm)
    exact ⟨f', h1, by omega⟩

/-- Witness for C9 at the fresh player (level 1, xp 0) granted exactly the
level-1→2 threshold of 350 xp. -/
theorem C9_level_up_threshold_arithmetic_witness :
    let f : Fighter :=
      { base_max_hp := 30, hp := 30, base_defense := 2, base_power := 5, xp := 350
        on_death := .player }
    let leveled := playerObject 0 0
    (({ leveled with fighter := some f } : Object).fighter = some f)
      ∧ ∃ f', (((level_up 1 (mkGame []) [{ leveled with fighter := some f }]).2.getD
            PLAYER default).fighter = some f')
          ∧ f'.xp = 0 := by
  intro f leveled
  refine ⟨rfl, ?_⟩
  exact (C9_level_up_threshold_arithmetic { leveled with fighter := some f } f []
      (mkGame []) 1 rfl).2.2.2 (by decide)

/-- Characterization of `Object::take_damage` on a fighter-bearing defender:
positive damage lowers hp to `max (hp - damage) 0`; whenever the post-damage
hp is 0 (whether or not it just crossed), the object is marked dead and
always-visible, the callback's effects apply and the banked xp is returned. -/
theorem take_damage_spec (obj : Object) (f : Fighter) (game : Game) (d : Int)
    (hf : obj.fighter = some f) :
    ∀ hp', hp' = (if d > 0 then (if f.hp - d < 0 then 0 else f.hp - d) else f.hp) →
      ((obj.take_damage d game).1.fighter = some { f with hp := hp' })
        ∧ ((obj.take_damage d game).2.2 = if hp' = 0 then some f.xp else none)
        ∧ ((obj.take_damage d game).1.alive = if hp' = 0 then false else obj.alive)
        ∧ ((obj.take_damage d game).1.always_visible
            = if hp' = 0 then true else obj.always_visible)
        ∧ (hp' = 0 → f.on_death = .monster →
            (obj.take_damage d game).1.name = "remains of " ++ obj.name
              ∧ (obj.take_damage d game).1.blocks = false
              ∧ (obj.take_damage d game).1.ai = none)
        ∧ (hp' = 0 → f.on_death = .player →
            (obj.take_damage d game).2.1.messages = game.messages.add "You died!" .red) := by
  intro hp' hhp
  obtain ⟨fmh, fhp, fdef, fpow, fxp, fod⟩ := f
  simp only at hhp ⊢
  by_cases hd : d > 0
  · by_cases hlow : fhp - d < 0
    · have h1 : fhp < d := by omega
      have h2 : hp' = 0 := by rw [hhp]; simp [hd, hlow]
      have h3 : d ≤ fhp → fhp - d = 0 := by omega
      subst h2
      cases hdeath : fod <;>
        simp [Object.take_damage, DeathCallback.callback, hf, hd, hlow, h1, h3, hdeath]
    · have h1 : ¬ fhp < d := by omega
      by_cases hz : fhp - d = 0
      · have h2 : hp' = 0 := by rw [hhp]; simp [hd, hlow, hz]
        have h3 : d ≤ fhp → fhp - d = 0 := by omega
        subst h2
        cases hdeath : fod <;>
          simp [Object.take_damage, DeathCallback.callback, hf, hd, hlow, h1, hz, h3, hdeath]
      · have h2 : hp' = fhp - d := by rw [hhp]; simp [hd, hlow]
        have h3 : ¬ (d ≤ fhp → fhp - d = 0) := by omega
        subst h2
        simp [Object.take_damage, hf, hd, hlow, h1, hz, h3]
  · by_cases hz : fhp = 0
    · have h2 : hp' = 0 := by rw [hhp]; simp [hd, hz]
      subst h2
      cases hdeath : fod <;>
        simp [Object.take_damage, DeathCallback.callback, hf, hd, hz, hdeath]
    · have h2 : hp' = fhp := by rw [hhp]; simp [hd]
      subst h2
      simp [Object.take_damage, hf, hd, hz]

/-- Claim C6: `attack` deals `effective_power − effective_defense`; a
non-positive difference leaves the defender's hp unchanged and logs the
distinct "no effect" message, while a positive difference lowers hp by
exactly that amount, floored at 0 and never negative. -/
theorem C6_attack_damage_rule (attacker target : Object) (f : Fighter) (game : Game)
    (hf : target.fighter = some f) :
    (attacker.power game - target.defense game ≤ 0 →
        (attacker.attack target game).2.1 = target
          ∧ (attacker.attack target game).2.2.messages
            = game.messages.add
                (attacker.name ++ " attacks " ++ target.name ++ " but it has no effect!")
                .white)
      ∧ (0 < attacker.power game - target.defense game →
          (attacker.attack target game).2.1.fighter
              = some { f with
                  hp := max (f.hp - (attacker.power game - target.defense game)) 0 }
            ∧ 0 ≤ max (f.hp - (attacker.power game - target.defense game)) 0) := by
  constructor
  · intro h
    have h' : ¬ (attacker.power game - target.defense game > 0) := by omega
    constructor <;> simp [Object.attack, h']
  · intro h
    have hspec := (take_damage_spec target f
      { game with
        messages := game.messages.add
          (attacker.name ++ " attacks " ++ target.name ++ " for "
            ++ toString (attacker.power game - target.defense game) ++ " hp")
          .white }
      (attacker.power game - target.defense game) hf) _ rfl
    refine ⟨?_, le_max_right _ _⟩
    have hval : (if attacker.power game - target.defense game > 0 then
          (if f.hp - (attacker.power game - target.defense game) < 0 then 0
            else f.hp - (attacker.power game - target.defense game))
          else f.hp)
        = max (f.hp - (attacker.power game - target.defense game)) 0 := by
      rw [if_pos h, max_def]
      split <;> split <;> omega
    rw [hval] at hspec
    simp only [Object.attack, if_pos h]
    rcases hres : target.take_damage (attacker.power game - target.defense game)
        { game with
          messages := game.messages.add
            (attacker.name ++ " attacks " ++ target.name ++ " for "
              ++ toString (attacker.power game - target.defense game) ++ " hp")
            .white }
      with ⟨t', g', xpOpt⟩
    rw [hres] at hspec
    cases xpOpt <;> simpa using hspec.1

/-- Witness for C6 at the §8 scenario: the player (power 5) attacks an orc
(defense 0) for 5 damage. -/
theorem C6_attack_damage_rule_witness :
    0 < (playerObject 0 0).power (mkGame []) - (orcObject 1 0).defense (mkGame [])
      ∧ ((playerObject 0 0).attack (orcObject 1 0) (mkGame [])).2.1.fighter
          = some { orcFighter with
              hp := max (orcFighter.hp - ((playerObject 0 0).power (mkGame [])
                - (orcObject 1 0).defense (mkGame []))) 0 } :=
  ⟨by decide,
   ((C6_attack_damage_rule (playerObject 0 0) (orcObject 1 0) orcFighter (mkGame [])
     rfl).2 (by decide)).1⟩

/-- Counterexample to C3 as stated: killing an orc returns its 35 xp, and a
second `take_damage` call on the corpse (whose fighter hp is already 0)
returns the 35 xp **again** — the death callback as specified does not remove
the Fighter component, so the claim's "never yields the xp again" fails. -/
theorem C3_second_take_damage_yields_xp_again :
    ((orcObject 1 0).take_damage 20 (mkGame [])).2.2 = some 35
      ∧ ((((orcObject 1 0).take_damage 20 (mkGame [])).1).take_damage 5
          (((orcObject 1 0).take_damage 20 (mkGame [])).2.1)).2.2 = some 35 := by
  constructor <;> decide

/-- Claim C3, amended: whenever the post-damage hp is 0, `take_damage` marks
the defender not-alive and permanently visible, applies the on-death effects
(for the spec-modelled Monster callback: rename to "remains of X", clear
blocking, clear AI) and returns the banked xp to the caller — but it does so
on **every** such call, not once per lifetime: the Fighter component survives
death, so a call on a defender whose hp is already 0 returns the xp again. -/
theorem C3_take_damage_death_and_xp (obj : Object) (f : Fighter) (game : Game)
    (d : Int) (hf : obj.fighter = some f) :
    (∀ hp', hp' = (if d > 0 then (if f.hp - d < 0 then 0 else f.hp - d) else f.hp) →
        hp' = 0 →
        (obj.take_damage d game).1.alive = false
          ∧ (obj.take_damage d game).1.always_visible = true
          ∧ (obj.take_damage d game).2.2 = some f.xp
          ∧ (f.on_death = .monster →
              (obj.take_damage d game).1.name = "remains of " ++ obj.name
                ∧ (obj.take_damage d game).1.blocks = false
                ∧ (obj.take_damage d game).1.ai = none))
      ∧ (f.hp = 0 → (obj.take_damage d game).2.2 = some f.xp)
      ∧ ((obj.take_damage d game).1.fighter).isSome := by
  have hspec := take_damage_spec obj f game d hf _ rfl
  constructor
  · intro hp' hhp h0
    rw [hhp] at h0
    refine ⟨?_, ?_, ?_, ?_⟩
    · rw [hspec.2.2.1, if_pos h0]
    · rw [hspec.2.2.2.1, if_pos h0]
    · rw [hspec.2.1, if_pos h0]
    · exact hspec.2.2.2.2.1 h0
  · constructor
    · intro hz
      have h0 : (if d > 0 then (if f.hp - d < 0 then 0 else f.hp - d) else f.hp) = 0 := by
        split
        · split <;> omega
        · omega
      rw [hspec.2.1, if_pos h0]
    · rw [hspec.1]
      rfl

/-- Witness for the amended C3 on a dead orc (fighter present, hp 0): a fresh
`take_damage` call still returns the banked 35 xp. -/
theorem C3_take_damage_death_and_xp_witness :
    (({ orcObject 1 0 with
        fighter := some { orcFighter with hp := 0 } } : Object).take_damage 5
          (mkGame [])).2.2
      = some ({ orcFighter with hp := 0 } : Fighter).xp :=
  (C3_take_damage_death_and_xp { orcObject 1 0 with fighter := some { orcFighter with hp := 0 } }
    { orcFighter with hp := 0 } (mkGame []) 5 rfl).2.1 rfl

/-- While fewer invocations than the counter have happened, a confused AI
stays confused with the counter decremented once per invocation. -/
theorem ai_iter_confused_partial (prev : Ai) :
    ∀ (k : Nat) (n : Int) (envs : Nat → AiEnv), (k : Int) < n →
      ai_controller_iter envs k (.confused prev n) = .confused prev (n - k) := by
  intro k
  induction k with
  | zero => intro n envs _; simp [ai_controller_iter]
  | succ m ih =>
    intro n envs hk
    have hne : ¬ (n - 1 = 0) := by
      push_cast at hk; omega
    have hstep : (ai_controller_step (envs 0) (.confused prev n)).1
        = .confused prev (n - 1) := by
      simp [ai_controller_step, hne]
    rw [ai_controller_iter, hstep, ih (n - 1) (fun j => envs (j + 1)) (by push_cast at hk ⊢; omega)]
    congr 1
    push_cast
    ring

/-- After exactly as many invocations as the counter, the confused AI is back
to the stored previous AI. -/
theorem ai_iter_confused_full :
    ∀ (n : Nat) (envs : Nat → AiEnv) (prev : Ai), 0 < n →
      ai_controller_iter envs n (.confused prev (n : Int)) = prev := by
  intro n
  induction n with
  | zero => intro _ _ h; omega
  | succ m ih =>
    intro envs prev _
    by_cases hm : m = 0
    · subst hm
      simp [ai_controller_iter, ai_controller_step]
    · have hstep : (ai_controller_step (envs 0) (.confused prev ((m + 1 : Nat) : Int))).1
          = .confused prev (m : Int) := by
        push_cast
        simp [ai_controller_step, hm]
      rw [ai_controller_iter, hstep, ih (fun j => envs (j + 1)) prev (by omega)]

/-- Claim C4: `cast_confuse` snapshots the monster's previous AI (defaulting
to `Basic`) inside `Confused` with the configured 10 turns and reports
`UsedUp`; under the spec-modelled controller the AI equals the original again
after exactly 10 invocations, and each of those 10 invocations is a random
move — never an attack. -/
theorem C4_confuse_sets_counter_and_expires :
    (∀ (objects : List Object) (monster_id : Nat) (game : Game) (iid : Nat),
        monster_id < objects.length →
          ((cast_confuse iid (some monster_id) game objects).2.1.getD monster_id
              default).ai
              = some (Ai.confused ((objects.getD monster_id default).ai.getD Ai.basic)
                  CONFUSE_NUM_TURNS)
            ∧ (cast_confuse iid (some monster_id) game objects).2.2 = .usedUp)
      ∧ (∀ (envs : Nat → AiEnv) (prev : Ai),
          ai_controller_iter envs 10 (.confused prev CONFUSE_NUM_TURNS) = prev)
      ∧ (∀ (envs : Nat → AiEnv) (prev : Ai) (k : Nat), k < 10 →
          (∃ n : Int, 0 < n
              ∧ ai_controller_iter envs k (.confused prev CONFUSE_NUM_TURNS)
                = .confused prev n)
            ∧ (ai_controller_step (envs k)
                (ai_controller_iter envs k (.confused prev CONFUSE_NUM_TURNS))).2
              = .moveRandom (envs k).rng_move.1 (envs k).rng_move.2) := by
  refine ⟨?_, ?_, ?_⟩
  · intro objects monster_id game iid hlt
    constructor
    · simp only [cast_confuse]
      rw [List.getD_eq_getElem?_getD, List.getElem?_set_self (by simpa using hlt)]
      rfl
    · rfl
  · intro envs prev
    have h := ai_iter_confused_full 10 envs prev (by omega)
    have hc : CONFUSE_NUM_TURNS = ((10 : Nat) : Int) := by
      simp [CONFUSE_NUM_TURNS]
    rw [hc]
    exact h
  · intro envs prev k hk
    have hc : CONFUSE_NUM_TURNS = (10 : Int) := by simp [CONFUSE_NUM_TURNS]
    have hstate := ai_iter_confused_partial prev k CONFUSE_NUM_TURNS envs (by
      rw [hc]; exact_mod_cast hk)
    refine ⟨⟨CONFUSE_NUM_TURNS - k, by rw [hc]; omega, hstate⟩, ?_⟩
    rw [hstate]
    rfl

/-- Witness for C4: confusing a basic-AI orc yields `Confused(Basic, 10)`;
after 10 controller invocations (under a constant environment) the AI is
`Basic` again, and invocation 3 is still a confused random move. -/
theorem C4_confuse_sets_counter_and_expires_witness :
    (((cast_confuse 0 (some 1) (mkGame []) [playerObject 0 0, orcObject 3 0]).2.1.getD 1
          default).ai
        = some (Ai.confused (([playerObject 0 0, orcObject 3 0].getD 1 default).ai.getD
            Ai.basic) CONFUSE_NUM_TURNS))
      ∧ (ai_controller_iter (fun _ => ⟨true, true, true, (0, 1)⟩) 10
            (.confused Ai.basic CONFUSE_NUM_TURNS) = Ai.basic)
      ∧ (ai_controller_step ((fun _ => (⟨true, true, true, (0, 1)⟩ : AiEnv)) 3)
            (ai_controller_iter (fun _ => ⟨true, true, true, (0, 1)⟩) 3
              (.confused Ai.basic CONFUSE_NUM_TURNS))).2
          = .moveRandom 0 1 :=
  ⟨(C4_confuse_sets_counter_and_expires.1 [playerObject 0 0, orcObject 3 0] 1
      (mkGame []) 0 (by decide)).1,
   C4_confuse_sets_counter_and_expires.2.1 (fun _ => ⟨true, true, true, (0, 1)⟩) Ai.basic,
   (C4_confuse_sets_counter_and_expires.2.2 (fun _ => ⟨true, true, true, (0, 1)⟩) Ai.basic
      3 (by omega)).2⟩

/-- `findIdx?` never reports an index below its start accumulator. -/
theorem findIdx?_start_le {α : Type} (p : α → Bool) :
    ∀ (l : List α) (i j : Nat), List.findIdx? p l i = some j → i ≤ j := by
  intro l
  induction l with
  | nil => intro i j h; simp [List.findIdx?] at h
  | cons a rest ih =>
    intro i j h
    rw [List.findIdx?_cons] at h
    by_cases hp : p a
    · rw [if_pos hp] at h
      injection h with h
      omega
    · rw [if_neg hp] at h
      have := ih (i + 1) j h
      omega

/-- Claim C10: `pick_item_up` removes the ground object by `swap_remove`
(last element moved into the removed index, so relative order of the
remaining ground entities is not preserved — see the concrete reorder in the
last conjunct), while the player at index 0 is never displaced and the picked
index is nonzero because the player carries no Item component. -/
theorem C10_pick_item_up_swap_remove_semantics :
    (∀ (game : Game) (objects : List Object) (object_id : Nat),
        game.inventory.length < 26 →
          (pick_item_up object_id game objects).2 = swap_remove objects object_id)
      ∧ (∀ (objects : List Object) (i : Nat) (last : Object),
          objects.getLast? = some last →
            swap_remove objects i = (objects.set i last).dropLast)
      ∧ (∀ (objects : List Object) (i : Nat), i ≠ 0 → i < objects.length →
          (swap_remove objects i).head? = objects.head?)
      ∧ (∀ (player : Object) (rest : List Object), player.item = none →
          ∀ j, ((player :: rest).findIdx? fun object =>
              object.pos = ((player :: rest).getD PLAYER default).pos
                && object.item.isSome) = some j → j ≠ 0)
      ∧ ((pick_item_up 1 (mkGame [])
            [playerObject 0 0, Potion.new 1 0 "Healing" .heal,
              Scroll.new 2 0 "Lightning Bolt" .lightning,
              Scroll.new 3 0 "Fireball" .fireball]).2.map Object.name
          = ["Player", "Scroll of Fireball", "Scroll of Lightning Bolt"]) := by
  refine ⟨?_, ?_, ?_, ?_, by decide⟩
  · intro game objects object_id hlen
    have : ¬ (game.inventory.length ≥ 26) := by omega
    simp [pick_item_up, this]
  · intro objects i last hlast
    simp [swap_remove, hlast]
  · intro objects i hi hlt
    have hne : objects ≠ [] := by
      intro h; subst h; simp at hlt
    obtain ⟨last, hlast⟩ := Option.isSome_iff_exists.mp (List.getLast?_isSome.mpr hne)
    have hlen2 : 2 ≤ objects.length := by omega
    rw [swap_remove, hlast]
    rw [List.head?_eq_getElem?, List.head?_eq_getElem?, List.getElem?_dropLast,
      List.getElem?_set_ne (by omega)]
    rw [if_pos (by rw [List.length_set]; omega)]
  · intro player rest hitem j hfind
    rw [List.findIdx?_cons, if_neg (by simp [hitem])] at hfind
    have := findIdx?_start_le _ rest 1 j hfind
    omega

/-- Witness for C10: picking up the first ground item from
`[player, potion, scroll A, scroll B]` (index 1, below capacity) swaps scroll
B into its slot, keeping the player at the head. -/
theorem C10_pick_item_up_swap_remove_semantics_witness :
    ((pick_item_up 1 (mkGame [])
          [playerObject 0 0, Potion.new 1 0 "Healing" .heal,
            Scroll.new 2 0 "Lightning Bolt" .lightning,
            Scroll.new 3 0 "Fireball" .fireball]).2
        = swap_remove
            [playerObject 0 0, Potion.new 1 0 "Healing" .heal,
              Scroll.new 2 0 "Lightning Bolt" .lightning,
              Scroll.new 3 0 "Fireball" .fireball] 1)
      ∧ (swap_remove
            [playerObject 0 0, Potion.new 1 0 "Healing" .heal,
              Scroll.new 2 0 "Lightning Bolt" .lightning,
              Scroll.new 3 0 "Fireball" .fireball] 1).head?
          = some (playerObject 0 0) :=
  ⟨C10_pick_item_up_swap_remove_semantics.1 (mkGame []) _ 1 (by decide),
   by
    rw [C10_pick_item_up_swap_remove_semantics.2.2.1 _ 1 (by decide) (by decide)]
    rfl⟩

/-- Witness for C8 at the monster-count table of `object.rs::place_objects`
and depth 4 (exactly the second entry's level). -/
theorem C8_from_dungeon_level_step_semantics_witness :
    (from_dungeon_level [⟨1, 2⟩, ⟨4, 3⟩, ⟨6, 5⟩] 4 =
        ((([⟨1, 2⟩, ⟨4, 3⟩, ⟨6, 5⟩] : List Transition).filter
          fun t => t.level ≤ 4).getLast?.map Transition.value).getD 0)
      ∧ from_dungeon_level [⟨1, 2⟩, ⟨4, 3⟩, ⟨6, 5⟩] 4 = 3 :=
  ⟨C8_from_dungeon_level_step_semantics.1 _ 4,
   C8_from_dungeon_level_step_semantics.2 [⟨1, 2⟩, ⟨4, 3⟩, ⟨6, 5⟩] 4 ⟨4, 3⟩
     (by decide) (by decide) rfl⟩


/-- The comparison bound of `closest_monster`'s loop never increases. -/
theorem cm_loop_bound_mono (player : Object) (fov : Int → Int → Bool) (mr : Int) :
    ∀ (l : List Object) (id0 : Nat) (best : Option (Nat × Int)),
      cm_bound mr (closest_monster_loop player fov mr l id0 best) ≤ cm_bound mr best := by
  intro l
  induction l with
  | nil => intro id0 best; simp [closest_monster_loop]
  | cons o rest ih =>
    intro id0 best
    rw [closest_monster_loop]
    dsimp only
    by_cases hc : id0 ≠ PLAYER ∧ lightning_candidate fov o
    · rw [if_pos hc]
      by_cases hlt : player.distance_to_sq o < cm_bound mr best
      · rw [if_pos hlt]
        calc cm_bound mr (closest_monster_loop player fov mr rest (id0 + 1)
                (some (id0, player.distance_to_sq o)))
            ≤ cm_bound mr (some (id0, player.distance_to_sq o)) := ih _ _
          _ ≤ cm_bound mr best := le_of_lt hlt
      · rw [if_neg hlt]
        exact ih _ _
    · rw [if_neg hc]
      exact ih _ _

/-- Every candidate in the unprocessed tail ends at or above the loop's final
bound. -/
theorem cm_loop_le_candidates (player : Object) (fov : Int → Int → Bool) (mr : Int) :
    ∀ (l : List Object) (id0 : Nat) (best : Option (Nat × Int)) (k : Nat),
      k < l.length → id0 + k ≠ PLAYER → lightning_candidate fov (l.getD k default) →
      cm_bound mr (closest_monster_loop player fov mr l id0 best)
        ≤ player.distance_to_sq (l.getD k default) := by
  intro l
  induction l with
  | nil => intro id0 best k hk; simp at hk
  | cons o rest ih =>
    intro id0 best k hk hkp hcand
    rw [closest_monster_loop]
    dsimp only
    cases k with
    | zero =>
      simp only [List.getD_cons_zero] at hcand ⊢
      have hc : id0 ≠ PLAYER ∧ lightning_candidate fov o := ⟨by simpa using hkp, hcand⟩
      rw [if_pos hc]
      by_cases hlt : player.distance_to_sq o < cm_bound mr best
      · rw [if_pos hlt]
        calc cm_bound mr (closest_monster_loop player fov mr rest (id0 + 1)
                (some (id0, player.distance_to_sq o)))
            ≤ cm_bound mr (some (id0, player.distance_to_sq o)) :=
              cm_loop_bound_mono player fov mr _ _ _
          _ ≤ player.distance_to_sq o := le_refl _
      · rw [if_neg hlt]
        calc cm_bound mr (closest_monster_loop player fov mr rest (id0 + 1) best)
            ≤ cm_bound mr best := cm_loop_bound_mono player fov mr _ _ _
          _ ≤ player.distance_to_sq o := by omega
    | succ k' =>
      simp only [List.getD_cons_succ] at hcand ⊢
      have hk' : k' < rest.length := by simpa using hk
      have hkp' : (id0 + 1) + k' ≠ PLAYER := by
        simp [PLAYER] at hkp ⊢
      exact ih (id0 + 1) _ k' hk' hkp' hcand

/-- Provenance: a `some` result of the loop is either the incoming best or a
candidate from the scanned list that beat the incoming bound. -/
theorem cm_loop_provenance (player : Object) (fov : Int → Int → Bool) (mr : Int) :
    ∀ (l : List Object) (id0 : Nat) (best : Option (Nat × Int)) (i : Nat) (d : Int),
      closest_monster_loop player fov mr l id0 best = some (i, d) →
      best = some (i, d) ∨
        ∃ k, k < l.length ∧ i = id0 + k ∧ id0 + k ≠ PLAYER
          ∧ lightning_candidate fov (l.getD k default)
          ∧ d = player.distance_to_sq (l.getD k default)
          ∧ d < cm_bound mr best := by
  intro l
  induction l with
  | nil => intro id0 best i d h; exact Or.inl (by simpa [closest_monster_loop] using h)
  | cons o rest ih =>
    intro id0 best i d h
    rw [closest_monster_loop] at h
    dsimp only at h
    by_cases hc : id0 ≠ PLAYER ∧ lightning_candidate fov o
    · rw [if_pos hc] at h
      by_cases hlt : player.distance_to_sq o < cm_bound mr best
      · rw [if_pos hlt] at h
        rcases ih (id0 + 1) _ i d h with hbest | ⟨k, hk, hik, hkp, hcand, hd, hdb⟩
        · injection hbest with hbest
          have hi : id0 = i := congrArg Prod.fst hbest
          have hd2 : player.distance_to_sq o = d := congrArg Prod.snd hbest
          subst hi
          refine Or.inr ⟨0, by simp, by omega, by simpa using hc.1, by simpa using hc.2,
            by simp [← hd2], ?_⟩
          rw [← hd2]
          exact hlt
        · refine Or.inr ⟨k + 1, by simpa using hk, by omega, by omega, ?_, ?_, ?_⟩
          · simpa using hcand
          · simpa using hd
          · calc d < cm_bound mr (some (id0, player.distance_to_sq o)) := hdb
              _ ≤ cm_bound mr best := le_of_lt hlt
      · rw [if_neg hlt] at h
        rcases ih (id0 + 1) _ i d h with hbest | ⟨k, hk, hik, hkp, hcand, hd, hdb⟩
        · exact Or.inl hbest
        · exact Or.inr ⟨k + 1, by simpa using hk, by omega, by omega,
            by simpa using hcand, by simpa using hd, hdb⟩
    · rw [if_neg hc] at h
      rcases ih (id0 + 1) _ i d h with hbest | ⟨k, hk, hik, hkp, hcand, hd, hdb⟩
      · exact Or.inl hbest
      · exact Or.inr ⟨k + 1, by simpa using hk, by omega, by omega,
          by simpa using hcand, by simpa using hd, hdb⟩

/-- Candidates scanned strictly before the final winner are strictly farther:
the winner had to beat the bound current when it was installed. -/
theorem cm_loop_earlier_gt (player : Object) (fov : Int → Int → Bool) (mr : Int) :
    ∀ (l : List Object) (id0 : Nat) (best : Option (Nat × Int)),
      (∀ i0 e, best = some (i0, e) → i0 < id0) →
      ∀ i d, closest_monster_loop player fov mr l id0 best = some (i, d) →
      ∀ k, k < l.length → id0 + k ≠ PLAYER → lightning_candidate fov (l.getD k default) →
        id0 + k < i → d < player.distance_to_sq (l.getD k default) := by
  intro l
  induction l with
  | nil => intro id0 best _ i d _ k hk; simp at hk
  | cons o rest ih =>
    intro id0 best hinv i d h k hk hkp hcand hki
    rw [closest_monster_loop] at h
    dsimp only at h
    by_cases hc : id0 ≠ PLAYER ∧ lightning_candidate fov o
    · rw [if_pos hc] at h
      by_cases hlt : player.distance_to_sq o < cm_bound mr best
      · rw [if_pos hlt] at h
        have hinv' : ∀ i0 e, (some (id0, player.distance_to_sq o) : Option (Nat × Int))
            = some (i0, e) → i0 < id0 + 1 := by
          intro i0 e he
          injection he with he
          have := congrArg Prod.fst he
          omega
        cases k with
        | zero =>
          simp only [List.getD_cons_zero] at hcand ⊢
          rcases cm_loop_provenance player fov mr rest (id0 + 1) _ i d h with
            hbest | ⟨k', _, hik', _, _, hd', hdb'⟩
          · injection hbest with hbest
            have := congrArg Prod.fst hbest
            omega
          · calc d < cm_bound mr (some (id0, player.distance_to_sq o)) := hdb'
              _ = player.distance_to_sq o := rfl
        | succ k' =>
          simp only [List.getD_cons_succ] at hcand ⊢
          exact ih (id0 + 1) _ hinv' i d h k' (by simpa using hk) (by omega)
            hcand (by omega)
      · rw [if_neg hlt] at h
        have hinv' : ∀ i0 e, best = some (i0, e) → i0 < id0 + 1 := by
          intro i0 e he
          have := hinv i0 e he
          omega
        cases k with
        | zero =>
          simp only [List.getD_cons_zero] at hcand ⊢
          rcases cm_loop_provenance player fov mr rest (id0 + 1) _ i d h with
            hbest | ⟨k', _, hik', _, _, hd', hdb'⟩
          · have := hinv i d hbest
            omega
          · calc d < cm_bound mr best := hdb'
              _ ≤ player.distance_to_sq o := by omega
        | succ k' =>
          simp only [List.getD_cons_succ] at hcand ⊢
          exact ih (id0 + 1) _ hinv' i d h k' (by simpa using hk) (by omega)
            hcand (by omega)
    · rw [if_neg hc] at h
      have hinv' : ∀ i0 e, best = some (i0, e) → i0 < id0 + 1 := by
        intro i0 e he
        have := hinv i0 e he
        omega
      cases k with
      | zero =>
        simp only [List.getD_cons_zero] at hcand
        exact absurd ⟨by simpa using hkp, hcand⟩ hc
      | succ k' =>
        simp only [List.getD_cons_succ] at hcand ⊢
        exact ih (id0 + 1) _ hinv' i d h k' (by simpa using hk) (by omega)
          hcand (by omega)

/-- Counterexample to C7 as stated: with the orc at `(5, 1)` — squared
distance 26, i.e. Euclidean distance √26 ≈ 5.1 > 5 — `closest_monster` still
selects it (the code's cutoff is `dist < max_range + 1 = 6`), and the
lightning scroll is used up rather than cancelled, although no monster lies
within the claimed fixed range of 5. -/
theorem C7_lightning_accepts_beyond_range_5 :
    closest_monster (fun _ _ => true) [playerObject 0 0, orcObject 5 1] LIGHTNING_RANGE
        = some 1
      ∧ (playerObject 0 0).distance_to_sq (orcObject 5 1) = 26
      ∧ LIGHTNING_RANGE ^ 2 < 26
      ∧ (cast_lightning 0 (fun _ _ => true) (mkGame [])
          [playerObject 0 0, orcObject 5 1]).2.2 = UseResult.usedUp := by
  exact ⟨by decide, by decide, by decide, by decide⟩

/-- Claim C7, amended: `cast_lightning` targets the monster (fighter- and
AI-bearing, in field of view, non-player) nearest to the player by Euclidean
distance among those at distance **strictly below `LIGHTNING_RANGE + 1 = 6`**
(squared distance < 36) — not within 5 — with ties broken in favor of the
earliest list index; it deals the fixed 40 damage directly through
`take_damage` (bypassing defense) and credits the victim's banked xp to the
player on a kill; when no monster qualifies the scroll is cancelled with a
message and `use_item` leaves the inventory unchanged. -/
theorem C7_lightning_nearest_below_range_plus_one :
    (∀ (fov : Int → Int → Bool) (objects : List Object) (mr : Int) (i : Nat),
        closest_monster fov objects mr = some i →
          i ≠ PLAYER ∧ i < objects.length
            ∧ lightning_candidate fov (objects.getD i default)
            ∧ (objects.getD PLAYER default).distance_to_sq (objects.getD i default)
                < (mr + 1) ^ 2
            ∧ ∀ j, j < objects.length → j ≠ PLAYER →
                lightning_candidate fov (objects.getD j default) →
                  (objects.getD PLAYER default).distance_to_sq (objects.getD i default)
                      ≤ (objects.getD PLAYER default).distance_to_sq (objects.getD j default)
                    ∧ ((objects.getD PLAYER default).distance_to_sq (objects.getD j default)
                          = (objects.getD PLAYER default).distance_to_sq (objects.getD i default)
                        → i ≤ j))
      ∧ (∀ (fov : Int → Int → Bool) (objects : List Object) (mr : Int),
          closest_monster fov objects mr = none →
            ∀ j, j < objects.length → j ≠ PLAYER →
              lightning_candidate fov (objects.getD j default) →
                (mr + 1) ^ 2
                  ≤ (objects.getD PLAYER default).distance_to_sq (objects.getD j default))
      ∧ (∀ (fov : Int → Int → Bool) (iid : Nat) (game : Game) (objects : List Object),
          closest_monster fov objects LIGHTNING_RANGE = none →
            cast_lightning iid fov game objects
              = ({ game with
                    messages := game.messages.add "No enemy is close enough to strike." .red },
                  objects, .cancelled))
      ∧ (∀ (oracle : IoOracle) (iid : Nat) (game : Game) (objects : List Object),
          (game.inventory.getD iid default).item = some .lightning →
            closest_monster oracle.fov objects LIGHTNING_RANGE = none →
              (use_item oracle iid game objects).1.inventory = game.inventory
                ∧ (use_item oracle iid game objects).1.messages
                    = ((game.messages.add "No enemy is close enough to strike." .red).add
                        "Cancelled" .white))
      ∧ (∀ (fov : Int → Int → Bool) (iid : Nat) (game : Game) (objects : List Object)
            (mid : Nat) (f : Fighter),
          closest_monster fov objects LIGHTNING_RANGE = some mid →
            mid ≠ PLAYER → mid < objects.length →
            (objects.getD mid default).fighter = some f →
              (cast_lightning iid fov game objects).2.2 = .usedUp
                ∧ ((cast_lightning iid fov game objects).2.1.getD mid default).fighter
                    = some { f with hp := max (f.hp - LIGHTNING_DAMAGE) 0 }
                ∧ (max (f.hp - LIGHTNING_DAMAGE) 0 = 0 →
                    ∀ pf, (objects.getD PLAYER default).fighter = some pf →
                      ((cast_lightning iid fov game objects).2.1.getD PLAYER
                          default).fighter
                        = some { pf with xp := pf.xp + f.xp })) := by
  have part1 : ∀ (fov : Int → Int → Bool) (objects : List Object) (mr : Int) (i : Nat),
      closest_monster fov objects mr = some i →
        i ≠ PLAYER ∧ i < objects.length
          ∧ lightning_candidate fov (objects.getD i default)
          ∧ (objects.getD PLAYER default).distance_to_sq (objects.getD i default)
              < (mr + 1) ^ 2
          ∧ ∀ j, j < objects.length → j ≠ PLAYER →
              lightning_candidate fov (objects.getD j default) →
                (objects.getD PLAYER default).distance_to_sq (objects.getD i default)
                    ≤ (objects.getD PLAYER default).distance_to_sq (objects.getD j default)
                  ∧ ((objects.getD PLAYER default).distance_to_sq (objects.getD j default)
                        = (objects.getD PLAYER default).distance_to_sq (objects.getD i default)
                      → i ≤ j) := by
    intro fov objects mr i hsome
    unfold closest_monster at hsome
    rcases Option.map_eq_some'.mp hsome with ⟨⟨i', d⟩, hloop, hfst⟩
    cases hfst
    rcases cm_loop_provenance _ fov mr objects 0 none i' d hloop with hbest | ⟨k, hk, hik, hkp, hcand, hd, hdb⟩
    · cases hbest
    · have hik' : i' = k := by omega
      subst hik'
      have hb : cm_bound mr (closest_monster_loop (objects.getD PLAYER default) fov mr
          objects 0 none) = d := by
        rw [hloop]; rfl
      refine ⟨by omega, by omega, hcand, ?_, ?_⟩
      · rw [← hd]
        simpa [cm_bound] using hdb
      · intro j hj hjp hjcand
        have hle := cm_loop_le_candidates (objects.getD PLAYER default) fov mr objects
          0 none j hj (by omega) hjcand
        rw [hb] at hle
        constructor
        · rw [← hd]
          exact hle
        · intro heq
          by_contra hij
          have hji : 0 + j < i' := by omega
          have := cm_loop_earlier_gt (objects.getD PLAYER default) fov mr objects 0 none
            (by intro _ _ h; cases h) i' d hloop j hj (by omega) hjcand hji
          rw [heq, ← hd] at this
          omega
  have part3 : ∀ (fov : Int → Int → Bool) (iid : Nat) (game : Game)
      (objects : List Object),
      closest_monster fov objects LIGHTNING_RANGE = none →
        cast_lightning iid fov game objects
          = ({ game with
                messages := game.messages.add "No enemy is close enough to strike." .red },
              objects, .cancelled) := by
    intro fov iid game objects hnone
    simp [cast_lightning, hnone]
  refine ⟨part1, ?_, part3, ?_, ?_⟩
  · intro fov objects mr hnone j hj hjp hjcand
    unfold closest_monster at hnone
    have hloop := Option.map_eq_none'.mp hnone
    have hle := cm_loop_le_candidates (objects.getD PLAYER default) fov mr objects
      0 none j hj (by omega) hjcand
    rw [hloop] at hle
    simpa [cm_bound] using hle
  · intro oracle iid game objects hitem hnone
    rw [use_item, hitem]
    rw [part3 oracle.fov iid game objects hnone]
    exact ⟨rfl, rfl⟩
  · intro fov iid game objects mid f hsome hmid hlt hf
    set gm : Game := { game with
      messages := game.messages.add
        ("A lightning bolt strikes the " ++ (objects.getD mid default).name
          ++ " with a loud thunder! The damage is " ++ toString LIGHTNING_DAMAGE
          ++ " hit poiints.")
        .lightBlue } with hgm
    have hspec := take_damage_spec (objects.getD mid default) f gm LIGHTNING_DAMAGE hf _ rfl
    have hval : (if LIGHTNING_DAMAGE > 0 then
          (if f.hp - LIGHTNING_DAMAGE < 0 then 0 else f.hp - LIGHTNING_DAMAGE)
          else f.hp)
        = max (f.hp - LIGHTNING_DAMAGE) 0 := by
      rw [if_pos (by norm_num [LIGHTNING_DAMAGE]), max_def]
      split <;> split <;> omega
    rw [hval] at hspec
    rcases hres : (objects.getD mid default).take_damage LIGHTNING_DAMAGE gm with ⟨m', g', xpOpt⟩
    rw [hres] at hspec
    have hm' : m'.fighter = some { f with hp := max (f.hp - LIGHTNING_DAMAGE) 0 } := hspec.1
    have hxp : xpOpt = if max (f.hp - LIGHTNING_DAMAGE) 0 = 0 then some f.xp else none :=
      hspec.2.1
    simp only [cast_lightning, hsome, ← hgm, hres]
    cases hxo : xpOpt with
    | none =>
      refine ⟨trivial, ?_, ?_⟩
      · rw [List.getD_eq_getElem?_getD, List.getElem?_set_self (by simpa using hlt)]
        simpa using hm'
      · intro hkill pf hpf
        rw [hxo, if_pos hkill] at hxp
        cases hxp
    | some xp =>
      have hxpv : xp = f.xp := by
        rw [hxo] at hxp
        by_cases hkill : max (f.hp - LIGHTNING_DAMAGE) 0 = 0
        · rw [if_pos hkill] at hxp; exact Option.some.inj hxp
        · rw [if_neg hkill] at hxp; cases hxp
      refine ⟨trivial, ?_, ?_⟩
      · rw [List.getD_eq_getElem?_getD,
          List.getElem?_set_ne (by simpa [PLAYER] using (Ne.symm hmid)),
          List.getElem?_set_self (by simpa using hlt)]
        simpa using hm'
      · intro hkill pf hpf
        rw [List.getD_eq_getElem?_getD,
          List.getElem?_set_self (by simp only [List.length_set, PLAYER]; omega)]
        simp only [Option.getD_some]
        rw [List.getD_eq_getElem?_getD, List.getElem?_set_ne (by simpa [PLAYER] using hmid)]
        rw [← List.getD_eq_getElem?_getD, hpf]
        simp [hxpv]

/-- Witness for the amended C7: with the orc at `(3, 0)` (distance 3 < 6) and
full field of view, the orc is a qualifying target, the scroll is used up,
and the 40 lightning damage kills the orc, crediting its 35 xp to the
player. -/
theorem C7_lightning_nearest_below_range_plus_one_witness :
    lightning_candidate (fun _ _ => true)
        ([playerObject 0 0, orcObject 3 0].getD 1 default)
      ∧ (cast_lightning 0 (fun _ _ => true) (mkGame [])
          [playerObject 0 0, orcObject 3 0]).2.2 = .usedUp
      ∧ ((cast_lightning 0 (fun _ _ => true) (mkGame [])
            [playerObject 0 0, orcObject 3 0]).2.1.getD PLAYER default).fighter
          = some { playerFighter with xp := playerFighter.xp + orcFighter.xp } :=
  ⟨(C7_lightning_nearest_below_range_plus_one.1 (fun _ _ => true)
      [playerObject 0 0, orcObject 3 0] LIGHTNING_RANGE 1 (by decide)).2.2.1,
   (C7_lightning_nearest_below_range_plus_one.2.2.2.2 (fun _ _ => true) 0 (mkGame [])
      [playerObject 0 0, orcObject 3 0] 1 orcFighter (by decide) (by decide) (by decide)
      rfl).1,
   (C7_lightning_nearest_below_range_plus_one.2.2.2.2 (fun _ _ => true) 0 (mkGame [])
      [playerObject 0 0, orcObject 3 0] 1 orcFighter (by decide) (by decide) (by decide)
      rfl).2.2 (by decide) playerFighter rfl⟩

/-- Counterexample to C2 as stated: with every neighboring tile a wall and no
attackable target, the movement attempt is blocked (the player's position is
unchanged) yet `player_move_or_attack` returns `TookTurn`, so the monster
phase is NOT skipped — the claim says a blocked movement attempt yields
`DidntTakeTurn` and skips the monster phase entirely. -/
theorem C2_blocked_move_still_takes_turn :
    ((player_move_or_attack 0 1 (mkGameMap initialMap) [playerObject 5 5]).2.2
        = PlayerAction.tookTurn)
      ∧ ((player_move_or_attack 0 1 (mkGameMap initialMap) [playerObject 5 5]).2.1
          = [playerObject 5 5])
      ∧ monster_phase_runs [playerObject 5 5] PlayerAction.tookTurn = true := by
  exact ⟨by decide, by decide, by decide⟩

/-- Claim C2, amended: the monster phase runs exactly when the player is
alive and the action result is not `DidntTakeTurn` (with `Exit` having
already left the loop, that means `TookTurn`); menu browsing (inventory use,
drop, pickup key, unknown keys, fullscreen toggle) yields `DidntTakeTurn` and
skips the monster phase — but a movement attempt **always** returns
`TookTurn`, even when the destination is blocked and no attack happens, so a
blocked move does not skip the monster phase. -/
theorem C2_monster_phase_gating :
    (∀ (objects : List Object) (a : PlayerAction),
        monster_phase_runs objects a = true
          ↔ ((objects.getD PLAYER default).alive = true ∧ a ≠ .didntTakeTurn))
      ∧ (∀ (dx dy : Int) (game : Game) (objects : List Object),
          (player_move_or_attack dx dy game objects).2.2 = .tookTurn)
      ∧ (∀ (oracle : IoOracle) (game : Game) (objects : List Object) (key : KeyEvent),
          key = .textI ∨ key = .textG ∨ key = .textD ∨ key = .altEnter ∨ key = .other →
            (handle_keys oracle key game objects).2.2 = .didntTakeTurn) := by
  refine ⟨?_, ?_, ?_⟩
  · intro objects a
    simp [monster_phase_runs]
  · intro dx dy game objects
    unfold player_move_or_attack
    dsimp only
    split <;> rfl
  · intro oracle game objects key hkey
    cases halive : (objects.getD PLAYER default).alive <;>
      rcases hkey with rfl | rfl | rfl | rfl | rfl <;>
        · unfold handle_keys
          rw [halive]

/-- Witness for the amended C2: the monster-phase guard equivalence at a
concrete state, and the inventory-menu key yielding `DidntTakeTurn`. -/
theorem C2_monster_phase_gating_witness :
    (monster_phase_runs [playerObject 5 5] PlayerAction.tookTurn = true
        ↔ (([playerObject 5 5].getD PLAYER default).alive = true
            ∧ PlayerAction.tookTurn ≠ PlayerAction.didntTakeTurn))
      ∧ (handle_keys ⟨fun _ _ => true, none, none, none⟩ KeyEvent.textI (mkGame [])
          [playerObject 5 5]).2.2 = PlayerAction.didntTakeTurn :=
  ⟨C2_monster_phase_gating.1 [playerObject 5 5] .tookTurn,
   C2_monster_phase_gating.2.2 ⟨fun _ _ => true, none, none, none⟩ (mkGame [])
     [playerObject 5 5] .textI (Or.inl rfl)⟩

end Roguelike
